import Mathlib

/-!
# The OCI application adapter (`adapter/oci/app_client.go`)

A shallow embedding of the adapter that maps the domain entity `adapter.App`
onto the OCI Functions management API, followed by theorems about it.

Conventions of the embedding:

* A Go map is an association list read by first match (`mapLookup`); a map
  that may be `nil` is an `Option` of one.
* A Go pointer is an `Option`; dereferencing `none` is the outcome `panics`.
* A Go `interface{}` value is a `Value`, a tagged dynamic value.
* The remote client is a record of state-passing functions over an arbitrary
  state type, so that successive calls may answer differently.
* `int64` arithmetic is integer arithmetic reduced into the signed 64-bit
  range by `wrapInt64`.
-/

namespace OCI

/-! ## Dynamic values and maps -/

/-- A Go `interface{}` value, by dynamic type.  `slice` is `[]interface{}`,
`stringSlice` is `[]string`, `stringPtr` is `*string`. -/
inductive Value where
  | nil : Value
  | string (s : String) : Value
  | number (n : Int) : Value
  | bool (b : Bool) : Value
  | stringPtr (p : Option String) : Value
  | stringSlice (xs : List String) : Value
  | slice (xs : List Value) : Value

/-- The Go expression `m[k]` with its `ok` flag, on an association list. -/
def mapLookup {α : Type} (k : String) : List (String × α) → Option α
  | [] => none
  | (k', v) :: rest => if k' = k then some v else mapLookup k rest

/-- The Go statement `delete(m, k)`. -/
def mapDelete {α : Type} (k : String) (m : List (String × α)) : List (String × α) :=
  m.filter (fun e => decide (e.1 ≠ k))

/-- The Go statement `m[k] = v`. -/
def mapSet {α : Type} (k : String) (v : α) : List (String × α) → List (String × α)
  | [] => [(k, v)]
  | (k', v') :: rest => if k' = k then (k, v) :: rest else (k', v') :: mapSet k v rest

/-! ## Errors and outcomes -/

/-- An error value returned by the remote API client. -/
structure RemoteError where
  status : Nat
  message : String
deriving DecidableEq

/-- The error values the adapter can return: `errors.New(msg)`,
`adapter.AppNameNotFoundError{Name}`, or an error obtained from the remote
client and handed on. -/
inductive Error where
  | errorsNew (msg : String) : Error
  | AppNameNotFoundError (Name : String) : Error
  | remote (e : RemoteError) : Error
deriving DecidableEq

/-- How a call of a Go function ends: it returns a value with a nil error, it
returns a non-nil error (and a nil value), or it panics. -/
inductive Outcome (α : Type) where
  | returns (a : α) : Outcome α
  | fails (e : Error) : Outcome α
  | panics : Outcome α

/-- AnnotationSubnet - Subnet used to indicate the placement of the function runtime -/
def AnnotationSubnet : String := "oracle.com/oci/subnetIds"

/-! ## parseSubnetIds -/

/-- The `for _, s := range subnetsArray` loop of `parseSubnetIds`; `subnets`
is the slice accumulated so far. -/
def parseSubnetIds.loop : List Value → List String → Except Error (List String)
  | [], subnets => .ok subnets
  | s :: rest, subnets =>
    match s with
    | .string subnetString => parseSubnetIds.loop rest (subnets ++ [subnetString])
    | _ => .error (.errorsNew "Invalid subnets annotation")

/-- The function `parseSubnetIds` (app_client.go, lines 49-77). -/
def parseSubnetIds (annotations : Option (List (String × Value))) :
    Except Error (List String) :=
  match annotations with
  | none => .error (.errorsNew "Missing subnets annotation")
  | some m =>
    if m.length = 0 then .error (.errorsNew "Missing subnets annotation")
    else
      match mapLookup AnnotationSubnet m with
      | none => .error (.errorsNew "Missing subnets annotation")
      | some subnetsInterface =>
        match subnetsInterface with
        | .slice subnetsArray => parseSubnetIds.loop subnetsArray []
        | _ => .error (.errorsNew "Invalid subnets annotation")

/-- Whether a call ended with a non-nil error. -/
def isError {α : Type} : Except Error α → Bool
  | .error _ => true
  | .ok _ => false

/-- Whether a dynamic value is a Go string. -/
def Value.isString : Value → Bool
  | .string _ => true
  | _ => false

/-- A dynamic value read as a list of elements, for either of the two list
types a subnet annotation takes in this package: `[]interface{}` and
`[]string` (the type the converters store under the same key). -/
def Value.listElems : Value → Option (List Value)
  | .slice xs => some xs
  | .stringSlice xs => some (xs.map Value.string)
  | _ => none

/-- The elements of a dynamic value of type `[]interface{}` exactly. -/
def Value.sliceElems : Value → Option (List Value)
  | .slice xs => some xs
  | _ => none

/-- The malformed inputs in the words of the specification: the map is nil or
empty, or has no entry under the subnet key, or the value under the key is not
a list, or an element of the list is not a string. -/
def MalformedSubnets (annotations : Option (List (String × Value))) : Prop :=
  annotations = none ∨ annotations = some [] ∨
  ∃ m, annotations = some m ∧
    (mapLookup AnnotationSubnet m = none ∨
     ∃ v, mapLookup AnnotationSubnet m = some v ∧
       (v.listElems = none ∨
        ∃ xs, v.listElems = some xs ∧ ∃ x ∈ xs, x.isString = false))

/-- The malformed inputs of the code: as `MalformedSubnets`, with "a list"
read as a value of dynamic type `[]interface{}`. -/
def MalformedSubnetsUntyped (annotations : Option (List (String × Value))) : Prop :=
  annotations = none ∨ annotations = some [] ∨
  ∃ m, annotations = some m ∧
    (mapLookup AnnotationSubnet m = none ∨
     ∃ v, mapLookup AnnotationSubnet m = some v ∧
       (v.sliceElems = none ∨
        ∃ xs, v.sliceElems = some xs ∧ ∃ x ∈ xs, x.isString = false))

/-! ## Wire types of the OCI SDK and the domain entity -/

/-- The SDK type `common.SDKTime`, a point in time. -/
structure SDKTime where
  unixNano : Int
deriving DecidableEq

/-- The type `strfmt.DateTime`. -/
structure DateTime where
  unixNano : Int
deriving DecidableEq

/-- What the adapter takes from outside this file: the library functions
`time.Time.Format(time.RFC3339Nano)` and `strfmt.ParseDateTime` (`none` when it
returns an error), the constant `AnnotationCompartmentID`, declared elsewhere
in the package, and the value of `viper.GetString("oracle.compartment-id")`. -/
structure Env where
  Format : SDKTime → String
  ParseDateTime : String → Option DateTime
  AnnotationCompartmentID : String
  compartmentId : String

/-- The fields of `functions.Application` the adapter reads. -/
structure Application where
  Id : Option String
  CompartmentId : Option String
  DisplayName : Option String
  Config : Option (List (String × String))
  SubnetIds : List String
  TimeCreated : Option SDKTime
  TimeUpdated : Option SDKTime

/-- The fields of `functions.ApplicationSummary` the adapter reads. -/
structure ApplicationSummary where
  Id : Option String
  CompartmentId : Option String
  DisplayName : Option String
  FreeformTags : Option (List (String × String))
  SubnetIds : List String
  TimeCreated : Option SDKTime
  TimeUpdated : Option SDKTime

/-- The domain entity `adapter.App`. -/
structure App where
  ID : String
  Name : String
  Config : Option (List (String × String))
  Annotations : Option (List (String × Value))
  CreatedAt : DateTime
  UpdatedAt : DateTime

/-! ## Converters -/

/-- The function `convertOCIAppSummaryToAdapterApp` (lines 178-201).  The calls
`ociApp.TimeCreated.Format` and `ociApp.TimeUpdated.Format` and the expressions
`*ociApp.DisplayName` and `*ociApp.Id` dereference a pointer. -/
def convertOCIAppSummaryToAdapterApp (env : Env) (ociApp : ApplicationSummary) : Outcome App :=
  match ociApp.TimeCreated with
  | none => .panics
  | some timeCreated =>
    match env.ParseDateTime (env.Format timeCreated) with
    | none => .fails (.errorsNew "missing or invalid TimeCreated in application")
    | some createdAt =>
      match ociApp.TimeUpdated with
      | none => .panics
      | some timeUpdated =>
        match env.ParseDateTime (env.Format timeUpdated) with
        | none => .fails (.errorsNew "missing or invalid TimeUpdated in application")
        | some updatedAt =>
          let annotationMap : List (String × Value) := []
          let annotationMap := mapSet AnnotationSubnet (.stringSlice ociApp.SubnetIds) annotationMap
          let annotationMap :=
            mapSet env.AnnotationCompartmentID (.stringPtr ociApp.CompartmentId) annotationMap
          match ociApp.DisplayName with
          | none => .panics
          | some displayName =>
            match ociApp.Id with
            | none => .panics
            | some id =>
              .returns
                { Name := displayName
                  ID := id
                  Annotations := some annotationMap
                  CreatedAt := createdAt
                  UpdatedAt := updatedAt
                  Config := ociApp.FreeformTags }

/-- The function `convertOCIAppToAdapterApp` (lines 203-226). -/
def convertOCIAppToAdapterApp (env : Env) (ociApp : Application) : Outcome App :=
  match ociApp.TimeCreated with
  | none => .panics
  | some timeCreated =>
    match env.ParseDateTime (env.Format timeCreated) with
    | none => .fails (.errorsNew "missing or invalid TimeCreated in application")
    | some createAt =>
      match ociApp.TimeUpdated with
      | none => .panics
      | some timeUpdated =>
        match env.ParseDateTime (env.Format timeUpdated) with
        | none => .fails (.errorsNew "missing or invalid TimeUpdated in application")
        | some updatedAt =>
          let annotationMap : List (String × Value) := []
          let annotationMap := mapSet AnnotationSubnet (.stringSlice ociApp.SubnetIds) annotationMap
          let annotationMap :=
            mapSet env.AnnotationCompartmentID (.stringPtr ociApp.CompartmentId) annotationMap
          match ociApp.Id with
          | none => .panics
          | some id =>
            match ociApp.DisplayName with
            | none => .panics
            | some displayName =>
              .returns
                { ID := id
                  Name := displayName
                  CreatedAt := createAt
                  UpdatedAt := updatedAt
                  Annotations := some annotationMap
                  Config := ociApp.Config }

/-- The `for _, ociApp := range *ociApps` loop of `convertOCIAppsToAdapterApps`;
`resApps` is the slice accumulated so far. -/
def convertOCIAppsToAdapterApps.loop (env : Env) :
    List ApplicationSummary → List App → Outcome (List App)
  | [], resApps => .returns resApps
  | ociApp :: rest, resApps =>
    match convertOCIAppSummaryToAdapterApp env ociApp with
    | .fails err => .fails err
    | .panics => .panics
    | .returns app => convertOCIAppsToAdapterApps.loop env rest (resApps ++ [app])

/-- The function `convertOCIAppsToAdapterApps` (lines 165-176). -/
def convertOCIAppsToAdapterApps (env : Env) (ociApps : List ApplicationSummary) :
    Outcome (List App) :=
  convertOCIAppsToAdapterApps.loop env ociApps []

/-! ## The remote API client -/

/-- The request of `CreateApplication`, with the fields of
`CreateApplicationDetails` the adapter sets. -/
structure CreateApplicationRequest where
  CompartmentId : String
  Config : Option (List (String × String))
  DisplayName : String
  SubnetIds : List String

/-- The request of `ListApplications`; `DisplayName` and `Page` are nil unless set. -/
structure ListApplicationsRequest where
  CompartmentId : String
  DisplayName : Option String
  Page : Option String

/-- The response of `ListApplications`. -/
structure ListApplicationsResponse where
  Items : List ApplicationSummary
  OpcNextPage : Option String

/-- The request of `GetApplication`; the id is the pointer taken from a list item. -/
structure GetApplicationRequest where
  ApplicationId : Option String

/-- The request of `UpdateApplication`. -/
structure UpdateApplicationRequest where
  ApplicationId : String
  Config : Option (List (String × String))

/-- The request of `DeleteApplication`. -/
structure DeleteApplicationRequest where
  ApplicationId : String

/-- The five operations of `functions.FunctionsManagementClient` the adapter
calls.  Each takes the remote state and returns the response or the error
together with the next remote state. -/
structure FunctionsManagementClient (σ : Type) where
  CreateApplication : σ → CreateApplicationRequest → Except RemoteError Application × σ
  ListApplications :
    σ → ListApplicationsRequest → Except RemoteError ListApplicationsResponse × σ
  GetApplication : σ → GetApplicationRequest → Except RemoteError Application × σ
  UpdateApplication : σ → UpdateApplicationRequest → Except RemoteError Application × σ
  DeleteApplication : σ → DeleteApplicationRequest → Except RemoteError Unit × σ

/-- One call made on the remote client: the request sent and what came back. -/
inductive Call where
  | create (req : CreateApplicationRequest) (res : Except RemoteError Application) : Call
  | list (req : ListApplicationsRequest) (res : Except RemoteError ListApplicationsResponse) :
      Call
  | get (req : GetApplicationRequest) (res : Except RemoteError Application) : Call
  | update (req : UpdateApplicationRequest) (res : Except RemoteError Application) : Call
  | delete (req : DeleteApplicationRequest) (res : Except RemoteError Unit) : Call

/-- The error a call came back with, if it did. -/
def Call.error? : Call → Option RemoteError
  | .create _ (.error e) => some e
  | .list _ (.error e) => some e
  | .get _ (.error e) => some e
  | .update _ (.error e) => some e
  | .delete _ (.error e) => some e
  | _ => none

/-- Whether a call is a list request. -/
def Call.isList : Call → Bool
  | .list _ _ => true
  | _ => false

/-- The page cursor a list request carried. -/
def Call.page? : Call → Option String
  | .list req _ => req.Page
  | _ => none

/-- The number of items a list call came back with. -/
def Call.itemCount : Call → Nat
  | .list _ (.ok resp) => resp.Items.length
  | _ => 0

/-- The apps a list call contributes: the conversions of the items of its
page, in the page's order. -/
def Call.convertedItems (env : Env) : Call → List App
  | .list _ (.ok resp) =>
    match convertOCIAppsToAdapterApps env resp.Items with
    | .returns adapterApps => adapterApps
    | _ => []
  | _ => []

/-- An execution of an adapter operation: how it ended, the remote state it
left, the calls it made on the remote client in order, and the lines it wrote
to standard error. -/
structure Run (σ β : Type) where
  outcome : β
  state : σ
  calls : List Call
  stderr : List String

/-! ## Adapter operations -/

/-- The method `AppClient.CreateApp` (lines 24-47). -/
def CreateApp {σ : Type} (env : Env) (c : FunctionsManagementClient σ) (s : σ) (app : App) :
    Run σ (Outcome App) :=
  let compartmentId := env.compartmentId
  match parseSubnetIds app.Annotations with
  | .error err => { outcome := .fails err, state := s, calls := [], stderr := [] }
  | .ok subnetIds =>
    let req : CreateApplicationRequest :=
      { CompartmentId := compartmentId
        Config := app.Config
        DisplayName := app.Name
        SubnetIds := subnetIds }
    match c.CreateApplication s req with
    | (.error err, s1) =>
      { outcome := .fails (.remote err), state := s1
        calls := [.create req (.error err)], stderr := [] }
    | (.ok res, s1) =>
      { outcome := convertOCIAppToAdapterApp env res, state := s1
        calls := [.create req (.ok res)], stderr := [] }

/-- The method `AppClient.GetApp` (lines 79-99). -/
def GetApp {σ : Type} (env : Env) (c : FunctionsManagementClient σ) (s : σ) (appName : String) :
    Run σ (Outcome App) :=
  let compartmentId := env.compartmentId
  let req : ListApplicationsRequest :=
    { CompartmentId := compartmentId, DisplayName := some appName, Page := none }
  match c.ListApplications s req with
  | (.error err, s1) =>
    { outcome := .fails (.remote err), state := s1
      calls := [.list req (.error err)], stderr := [] }
  | (.ok resp, s1) =>
    match resp.Items with
    | item0 :: _ =>
      let getreq : GetApplicationRequest := { ApplicationId := item0.Id }
      match c.GetApplication s1 getreq with
      | (.error geterr, s2) =>
        { outcome := .fails (.remote geterr), state := s2
          calls := [.list req (.ok resp), .get getreq (.error geterr)], stderr := [] }
      | (.ok getres, s2) =>
        { outcome := convertOCIAppToAdapterApp env getres, state := s2
          calls := [.list req (.ok resp), .get getreq (.ok getres)], stderr := [] }
    | [] =>
      { outcome := .fails (.AppNameNotFoundError appName), state := s1
        calls := [.list req (.ok resp)], stderr := [] }

/-- The `for k, v := range app.Config` loop of `UpdateApp`.  `order` is the
order in which the range statement produces the keys, which Go leaves
unspecified; a key whose entry is not in the map when its turn comes is not
produced. -/
def UpdateApp.merge : List String → List (String × String) → List (String × String)
  | [], config => config
  | k :: order, config =>
    match mapLookup k config with
    | none => UpdateApp.merge order config
    | some v =>
      if v = "" then UpdateApp.merge order (mapDelete k config)
      else UpdateApp.merge order (mapSet k v config)

/-- The request `UpdateApp` builds (lines 102-115).  Ranging over a nil map
runs no iteration. -/
def UpdateApp.request (app : App) (order : List String) : UpdateApplicationRequest :=
  { ApplicationId := app.ID
    Config := app.Config.map (UpdateApp.merge order) }

/-- The entry a possibly nil Go map holds under a key. -/
def configGet (config : Option (List (String × String))) (k : String) : Option String :=
  config.bind (mapLookup k)

/-- The method `AppClient.UpdateApp` (lines 101-123). -/
def UpdateApp {σ : Type} (env : Env) (c : FunctionsManagementClient σ) (s : σ) (app : App)
    (order : List String) : Run σ (Outcome App) :=
  let req := UpdateApp.request app order
  match c.UpdateApplication s req with
  | (.error err, s1) =>
    { outcome := .fails (.remote err), state := s1
      calls := [.update req (.error err)], stderr := [] }
  | (.ok res, s1) =>
    { outcome := convertOCIAppToAdapterApp env res, state := s1
      calls := [.update req (.ok res)], stderr := [] }

/-- The method `AppClient.DeleteApp` (lines 125-129). -/
def DeleteApp {σ : Type} (c : FunctionsManagementClient σ) (s : σ) (appID : String) :
    Run σ (Outcome Unit) :=
  let req : DeleteApplicationRequest := { ApplicationId := appID }
  match c.DeleteApplication s req with
  | (.error err, s1) =>
    { outcome := .fails (.remote err), state := s1
      calls := [.delete req (.error err)], stderr := [] }
  | (.ok u, s1) =>
    { outcome := .returns (), state := s1, calls := [.delete req (.ok u)], stderr := [] }

/-- A mathematical integer reduced into the range of `int64`, as Go's signed
arithmetic does on overflow. -/
def wrapInt64 (x : Int) : Int :=
  (x + 2 ^ 63) % 2 ^ 64 - 2 ^ 63

/-- The statements of `ListApp` after its loop (lines 157-162). -/
def ListApp.finish {σ : Type} (s : σ) (calls : List Call) (resApps : List App) :
    Run σ (Option (Outcome (List App))) :=
  if resApps.length = 0 then
    { outcome := some (.returns []), state := s, calls := calls, stderr := ["No apps found\n"] }
  else
    { outcome := some (.returns resApps), state := s, calls := calls, stderr := [] }

/-- The `for` loop of `ListApp` (lines 136-155), run for at most `fuel`
iterations: `req` is the request about to be sent, `resApps` the apps
accumulated, `calls` the calls made so far.  The outcome `none` means the loop
was still running when the fuel ran out. -/
def ListApp.loop {σ : Type} (env : Env) (c : FunctionsManagementClient σ) (limit : Int) :
    Nat → σ → ListApplicationsRequest → List App → List Call →
      Run σ (Option (Outcome (List App)))
  | 0, s, _, _, calls => { outcome := none, state := s, calls := calls, stderr := [] }
  | fuel + 1, s, req, resApps, calls =>
    match c.ListApplications s req with
    | (.error err, s1) =>
      { outcome := some (.fails (.remote err)), state := s1
        calls := calls ++ [.list req (.error err)], stderr := [] }
    | (.ok resp, s1) =>
      let calls1 := calls ++ [.list req (.ok resp)]
      match convertOCIAppsToAdapterApps env resp.Items with
      | .fails err => { outcome := some (.fails err), state := s1, calls := calls1, stderr := [] }
      | .panics => { outcome := some .panics, state := s1, calls := calls1, stderr := [] }
      | .returns adapterApps =>
        let resApps1 := resApps ++ adapterApps
        let howManyMore := wrapInt64 (limit - ((resApps1.length + resp.Items.length : Nat) : Int))
        if howManyMore ≤ 0 ∨ resp.OpcNextPage = none then
          ListApp.finish s1 calls1 resApps1
        else
          ListApp.loop env c limit fuel s1 { req with Page := resp.OpcNextPage } resApps1 calls1

/-- The method `AppClient.ListApp` (lines 131-163), with a bound on the number
of loop iterations. -/
def ListApp {σ : Type} (env : Env) (c : FunctionsManagementClient σ) (s : σ) (limit : Int)
    (fuel : Nat) : Run σ (Option (Outcome (List App))) :=
  let compartmentId := env.compartmentId
  let req : ListApplicationsRequest :=
    { CompartmentId := compartmentId, DisplayName := none, Page := none }
  ListApp.loop env c limit fuel s req [] []

/-- The answer to the list request number `n` (from 0) of the cursor chain that
starts at request `req` in remote state `s`, each request carrying the cursor
of the page before it; an error ends the chain and stays its answer. -/
def pageAt {σ : Type} (c : FunctionsManagementClient σ) :
    Nat → σ → ListApplicationsRequest → Except RemoteError ListApplicationsResponse
  | 0, s, req => (c.ListApplications s req).1
  | n + 1, s, req =>
    match c.ListApplications s req with
    | (.error err, _) => .error err
    | (.ok resp, s1) => pageAt c n s1 { req with Page := resp.OpcNextPage }

/-- The number of items of the last page fetched, read from the calls made. -/
def lastPageSize (calls : List Call) : Nat :=
  match calls.getLast? with
  | some call => call.itemCount
  | none => 0

/-- Whether an answer is a page without items. -/
def isEmptyPage : Except RemoteError ListApplicationsResponse → Bool
  | .ok resp => resp.Items.isEmpty
  | .error _ => false

/-- Whether an answer is a page without a next-page cursor. -/
def isLastPage : Except RemoteError ListApplicationsResponse → Bool
  | .ok resp => resp.OpcNextPage.isNone
  | .error _ => false

/-! ## Fixtures -/

/-- An environment whose time functions render every time as one fixed text
and parse every non-empty text. -/
def testEnv : Env :=
  { Format := fun _ => "2019-01-01T00:00:00Z"
    ParseDateTime := fun text => if text = "" then none else some ⟨0⟩
    AnnotationCompartmentID := "oracle.com/oci/compartmentId"
    compartmentId := "ocid1.compartment" }

/-- A list item with all fields present. -/
def sampleSummary (id : String) : ApplicationSummary :=
  { Id := some id, CompartmentId := some "ocid1.compartment", DisplayName := some id
    FreeformTags := none, SubnetIds := [], TimeCreated := some ⟨1⟩, TimeUpdated := some ⟨2⟩ }

/-- A full resource with all fields present. -/
def sampleApplication (id : String) : Application :=
  { Id := some id, CompartmentId := some "ocid1.compartment", DisplayName := some id
    Config := none, SubnetIds := [], TimeCreated := some ⟨1⟩, TimeUpdated := some ⟨2⟩ }

/-- A stateless remote whose list operation is `list`, a function of the page
cursor, and whose other operations answer with `sampleApplication`. -/
def pagedClient (list : Option String → Except RemoteError ListApplicationsResponse) :
    FunctionsManagementClient Unit :=
  { CreateApplication := fun s req => (.ok (sampleApplication req.DisplayName), s)
    ListApplications := fun s req => (list req.Page, s)
    GetApplication := fun s _ => (.ok (sampleApplication "app"), s)
    UpdateApplication := fun s req => (.ok (sampleApplication req.ApplicationId), s)
    DeleteApplication := fun s _ => (.ok (), s) }

/-- A remote every operation of which fails with the error `e`. -/
def failingClient (e : RemoteError) : FunctionsManagementClient Unit :=
  { CreateApplication := fun s _ => (.error e, s)
    ListApplications := fun s _ => (.error e, s)
    GetApplication := fun s _ => (.error e, s)
    UpdateApplication := fun s _ => (.error e, s)
    DeleteApplication := fun s _ => (.error e, s) }

/-- A remote holding 12 items, served in pages of 5, 5 and 2, with a
next-page cursor on every page but the last. -/
def twelveItems : Option String → Except RemoteError ListApplicationsResponse
  | none =>
    .ok { Items := ["a1", "a2", "a3", "a4", "a5"].map sampleSummary, OpcNextPage := some "p2" }
  | some cursor =>
    if cursor = "p2" then
      .ok { Items := ["a6", "a7", "a8", "a9", "a10"].map sampleSummary, OpcNextPage := some "p3" }
    else if cursor = "p3" then
      .ok { Items := ["a11", "a12"].map sampleSummary, OpcNextPage := none }
    else .error { status := 400, message := "InvalidParameter" }

/-- A remote that holds two items and serves them in one page. -/
def twoItems : Option String → Except RemoteError ListApplicationsResponse :=
  fun _ => .ok { Items := ["a1", "a2"].map sampleSummary, OpcNextPage := none }

/-- A remote every page of which is empty and carries a next-page cursor. -/
def endlessEmpty : Option String → Except RemoteError ListApplicationsResponse :=
  fun _ => .ok { Items := [], OpcNextPage := some "next" }

/-- A remote with one empty page. -/
def noItems : Option String → Except RemoteError ListApplicationsResponse :=
  fun _ => .ok { Items := [], OpcNextPage := none }

/-- A remote that keeps, as its state, the Config of every update request it
has received, in order. -/
def recordingClient : FunctionsManagementClient (List (Option (List (String × String)))) :=
  { CreateApplication := fun s req => (.ok (sampleApplication req.DisplayName), s)
    ListApplications := fun s _ => (.ok { Items := [], OpcNextPage := none }, s)
    GetApplication := fun s _ => (.ok (sampleApplication "app"), s)
    UpdateApplication := fun s req => (.ok (sampleApplication req.ApplicationId), s ++ [req.Config])
    DeleteApplication := fun s _ => (.ok (), s) }

/-- The error a remote out of service answers with. -/
def unavailable : RemoteError :=
  { status := 503, message := "ServiceUnavailable" }

/-- A remote that serves a first page of five items with a cursor and is out
of service at every later page. -/
def secondPageFails : Option String → Except RemoteError ListApplicationsResponse
  | none =>
    .ok { Items := ["a1", "a2", "a3", "a4", "a5"].map sampleSummary, OpcNextPage := some "p2" }
  | some _ => .error unavailable

/-- A remote whose list finds the app and whose get-by-ID is out of service;
the state counts the calls received. -/
def getFailsClient : FunctionsManagementClient Nat :=
  { CreateApplication := fun s req => (.ok (sampleApplication req.DisplayName), s + 1)
    ListApplications := fun s _ =>
      (.ok { Items := [sampleSummary "app"], OpcNextPage := none }, s + 1)
    GetApplication := fun s _ => (.error unavailable, s + 1)
    UpdateApplication := fun s req => (.ok (sampleApplication req.ApplicationId), s + 1)
    DeleteApplication := fun s _ => (.ok (), s + 1) }

/-- The list request `ListApp` starts with in `testEnv`. -/
def firstListRequest : ListApplicationsRequest :=
  { CompartmentId := testEnv.compartmentId, DisplayName := none, Page := none }

/-- An app whose only set fields are its id, name and config. -/
def sampleApp (config : Option (List (String × String)))
    (annotations : Option (List (String × Value))) : App :=
  { ID := "ocid1.app", Name := "app", Config := config, Annotations := annotations
    CreatedAt := ⟨0⟩, UpdatedAt := ⟨0⟩ }

/-! ### Lemmas on parseSubnetIds -/

theorem parseSubnetIds_loop_strings (strs acc : List String) :
    parseSubnetIds.loop (strs.map Value.string) acc = .ok (acc ++ strs) := by
  induction strs generalizing acc with
  | nil => simp [parseSubnetIds.loop]
  | cons s rest ih => simp [parseSubnetIds.loop, ih]

theorem parseSubnetIds_loop_error_iff (xs : List Value) (acc : List String) :
    isError (parseSubnetIds.loop xs acc) = true ↔ ∃ x ∈ xs, x.isString = false := by
  induction xs generalizing acc with
  | nil => simp [parseSubnetIds.loop, isError]
  | cons x rest ih =>
    cases x <;> simp only [parseSubnetIds.loop, ih, List.mem_cons, exists_eq_or_imp] <;>
      simp [isError, Value.isString]

/-! ## parseSubnetIds: when it fails (C1) and what it returns (C2) -/

/-- C1, as stated, fails on the code: a map whose subnet entry is a `[]string`
with the one element "a" is not nil, not empty, has the key, holds a list under
it and every element of that list is a string, yet `parseSubnetIds` returns an
error, because the type assertion asks for `[]interface{}`. -/
theorem parseSubnetIds_rejects_typed_string_list :
    isError (parseSubnetIds (some [(AnnotationSubnet, Value.stringSlice ["a"])])) = true ∧
      ¬ MalformedSubnets (some [(AnnotationSubnet, Value.stringSlice ["a"])]) := by
  refine ⟨rfl, ?_⟩
  simp [MalformedSubnets, mapLookup, Value.listElems, Value.isString]

/-- C1, amended: `parseSubnetIds` returns an error exactly when the map is nil
or empty, or has no entry under the subnet key, or the value under that key is
not of dynamic type `[]interface{}`, or at least one element of that slice is
not a string. -/
theorem parseSubnetIds_error_iff (annotations : Option (List (String × Value))) :
    isError (parseSubnetIds annotations) = true ↔ MalformedSubnetsUntyped annotations := by
  cases annotations with
  | none => simp [parseSubnetIds, isError, MalformedSubnetsUntyped]
  | some m =>
    cases m with
    | nil => simp [parseSubnetIds, isError, MalformedSubnetsUntyped]
    | cons e rest =>
      cases hl : mapLookup AnnotationSubnet (e :: rest) with
      | none => simp [parseSubnetIds, isError, MalformedSubnetsUntyped, hl]
      | some v =>
        cases v with
        | slice xs =>
          have h := parseSubnetIds_loop_error_iff xs []
          simp [parseSubnetIds, MalformedSubnetsUntyped, hl, Value.sliceElems, h]
        | _ => simp [parseSubnetIds, isError, MalformedSubnetsUntyped, hl, Value.sliceElems]

/-- C2, as stated, fails on the code: the value `[]string{"a", "b"}` under the
subnet key is a list all of whose elements are strings, and `parseSubnetIds`
returns the error "Invalid subnets annotation" instead of those strings. -/
theorem parseSubnetIds_typed_string_list_not_returned :
    Value.listElems (Value.stringSlice ["a", "b"]) = some (["a", "b"].map Value.string) ∧
      parseSubnetIds (some [(AnnotationSubnet, Value.stringSlice ["a", "b"])]) =
        .error (.errorsNew "Invalid subnets annotation") :=
  ⟨rfl, rfl⟩

/-- C2, amended: when the value under the subnet key is a `[]interface{}` all
of whose elements are strings, `parseSubnetIds` returns no error and exactly
those strings in their order, whatever other keys the map holds. -/
theorem parseSubnetIds_returns_strings (m : List (String × Value)) (strs : List String)
    (h : mapLookup AnnotationSubnet m = some (Value.slice (strs.map Value.string))) :
    parseSubnetIds (some m) = .ok strs := by
  cases m with
  | nil => simp [mapLookup] at h
  | cons e rest =>
    simp [parseSubnetIds, h, parseSubnetIds_loop_strings]

/-- Witness for C2: the map with "a" and "b" under the subnet key, next to
another key. -/
theorem parseSubnetIds_returns_strings_witness :
    mapLookup AnnotationSubnet
        [("other", Value.number 1),
         (AnnotationSubnet, Value.slice [Value.string "a", Value.string "b"])] =
        some (Value.slice (["a", "b"].map Value.string)) ∧
      parseSubnetIds
        (some [("other", Value.number 1),
               (AnnotationSubnet, Value.slice [Value.string "a", Value.string "b"])]) =
        .ok ["a", "b"] :=
  ⟨rfl, parseSubnetIds_returns_strings _ ["a", "b"] rfl⟩

/-! ## UpdateApp: the transmitted Config (C3) -/

theorem mapLookup_mapDelete {α : Type} (k k' : String) (m : List (String × α)) :
    mapLookup k (mapDelete k' m) = if k = k' then none else mapLookup k m := by
  induction m with
  | nil => simp [mapDelete, mapLookup]
  | cons e rest ih =>
    obtain ⟨ke, ve⟩ := e
    unfold mapDelete at ih ⊢
    by_cases h1 : ke = k'
    · by_cases h2 : k = k'
      · simp [List.filter, h1, h2, mapLookup] at ih ⊢
        exact ih
      · have h3 : ¬ k' = k := fun h => h2 h.symm
        simp [List.filter, h1, h2, h3, mapLookup] at ih ⊢
        exact ih
    · by_cases h2 : k = k'
      · have h3 : ¬ ke = k := fun h => h1 (h.trans h2)
        simp [List.filter, h1, h2, mapLookup] at ih ⊢
        subst h2
        simp [h3, ih]
      · simp [List.filter, h1, h2, mapLookup] at ih ⊢
        by_cases h4 : ke = k
        · simp [h4]
        · simp [h4, ih]

theorem mapLookup_mapSet {α : Type} (k k' : String) (v : α) (m : List (String × α)) :
    mapLookup k (mapSet k' v m) = if k = k' then some v else mapLookup k m := by
  induction m with
  | nil =>
    by_cases h : k = k'
    · simp [mapSet, mapLookup, h]
    · have h' : ¬ k' = k := fun e => h e.symm
      simp [mapSet, mapLookup, h, h']
  | cons e rest ih =>
    obtain ⟨ke, ve⟩ := e
    by_cases h1 : ke = k'
    · by_cases h2 : k = k'
      · simp [mapSet, mapLookup, h1, h2]
      · have h3 : ¬ k' = k := fun e => h2 e.symm
        simp [mapSet, mapLookup, h1, h2, h3]
    · by_cases h4 : ke = k
      · have h2 : ¬ k = k' := fun e => h1 (h4.trans e)
        simp [mapSet, mapLookup, h1, h2, h4]
      · simp [mapSet, mapLookup, h1, h4, ih]

/-- What the merge loop leaves under each key: the keys the range statement
produced keep their value unless it is empty, the others are untouched. -/
theorem UpdateApp_merge_lookup (order : List String) (config : List (String × String))
    (k : String) :
    mapLookup k (UpdateApp.merge order config) =
      if k ∈ order then (mapLookup k config).filter (fun v => decide (v ≠ ""))
      else mapLookup k config := by
  induction order generalizing config with
  | nil => simp [UpdateApp.merge]
  | cons k0 rest ih =>
    unfold UpdateApp.merge
    cases hk0 : mapLookup k0 config with
    | none =>
      simp only [ih, List.mem_cons]
      by_cases h : k = k0
      · subst h; simp [hk0, Option.filter]
      · simp [h]
    | some v =>
      by_cases hv : v = ""
      · simp only [hv, if_true, ih, mapLookup_mapDelete, List.mem_cons]
        by_cases h : k = k0
        · subst h; simp [hk0, hv, Option.filter]
        · simp [h]
      · simp only [hv, if_false, ih, mapLookup_mapSet, List.mem_cons]
        by_cases h : k = k0
        · subst h; simp [hk0, hv, Option.filter]
        · simp [h]

/-- C3: `UpdateApp` hands the remote client exactly one request, the update
request `UpdateApp.request app order`: the call recorded carries the client's
answer to that request, the remote state left is the one the client reached on
it, and the outcome is that answer's error or the conversion of its resource.
The Config of that request holds under a key the value `v` exactly when the
supplied Config holds `v` under that key and `v` is not the empty string;
`order`, the order in which Go ranges over the map, is any list that names
every key of the map. -/
theorem UpdateApp_transmits_nonempty_entries {σ : Type} (env : Env)
    (c : FunctionsManagementClient σ) (s : σ) (app : App) (order : List String)
    (horder : ∀ k v, configGet app.Config k = some v → k ∈ order) :
    (UpdateApp env c s app order).calls =
        [Call.update (UpdateApp.request app order)
          (c.UpdateApplication s (UpdateApp.request app order)).1] ∧
      (UpdateApp env c s app order).state =
        (c.UpdateApplication s (UpdateApp.request app order)).2 ∧
      (UpdateApp env c s app order).outcome =
        (match (c.UpdateApplication s (UpdateApp.request app order)).1 with
          | .error err => .fails (.remote err)
          | .ok res => convertOCIAppToAdapterApp env res) ∧
      ∀ k v, configGet (UpdateApp.request app order).Config k = some v ↔
        (configGet app.Config k = some v ∧ v ≠ "") := by
  refine ⟨?_, ?_, ?_, ?_⟩
  · unfold UpdateApp
    rcases hres : c.UpdateApplication s (UpdateApp.request app order) with ⟨res, s1⟩
    cases res <;> simp only [hres]
  · unfold UpdateApp
    rcases hres : c.UpdateApplication s (UpdateApp.request app order) with ⟨res, s1⟩
    cases res <;> simp only [hres]
  · unfold UpdateApp
    rcases hres : c.UpdateApplication s (UpdateApp.request app order) with ⟨res, s1⟩
    cases res <;> simp only [hres]
  · intro k v
    cases hcfg : app.Config with
    | none => simp [UpdateApp.request, configGet, hcfg]
    | some config =>
      have hmem : ∀ w, mapLookup k config = some w → k ∈ order := by
        intro w hw
        exact horder k w (by simp [configGet, hcfg, hw])
      simp only [UpdateApp.request, configGet, hcfg, Option.map_some', Option.some_bind,
        UpdateApp_merge_lookup]
      cases hl : mapLookup k config with
      | none => simp [Option.filter]
      | some w =>
        have hk : k ∈ order := hmem w hl
        by_cases hw : w = ""
        · subst hw
          simp [hk, Option.filter]
          intro h1
          exact h1.symm
        · simp [hk, Option.filter, hw]
          intro h1
          subst h1
          exact hw

/-- Witness for C3: the Config with "" under "A" and "2" under "B" reaches a
remote that records what it receives as the map with the one entry "2" under
"B". -/
theorem UpdateApp_transmits_nonempty_entries_witness :
    (∀ k v, configGet (sampleApp (some [("A", ""), ("B", "2")]) none).Config k = some v →
        k ∈ ["B", "A"]) ∧
      (UpdateApp testEnv recordingClient []
          (sampleApp (some [("A", ""), ("B", "2")]) none) ["B", "A"]).state =
        [some [("B", "2")]] ∧
      (recordingClient.UpdateApplication []
          (UpdateApp.request (sampleApp (some [("A", ""), ("B", "2")]) none) ["B", "A"])).2 =
        [some [("B", "2")]] ∧
      ((UpdateApp testEnv recordingClient []
            (sampleApp (some [("A", ""), ("B", "2")]) none) ["B", "A"]).calls =
          [Call.update
            (UpdateApp.request (sampleApp (some [("A", ""), ("B", "2")]) none) ["B", "A"])
            (recordingClient.UpdateApplication []
              (UpdateApp.request (sampleApp (some [("A", ""), ("B", "2")]) none)
                ["B", "A"])).1] ∧
        (UpdateApp testEnv recordingClient []
            (sampleApp (some [("A", ""), ("B", "2")]) none) ["B", "A"]).state =
          (recordingClient.UpdateApplication []
            (UpdateApp.request (sampleApp (some [("A", ""), ("B", "2")]) none) ["B", "A"])).2 ∧
        (UpdateApp testEnv recordingClient []
            (sampleApp (some [("A", ""), ("B", "2")]) none) ["B", "A"]).outcome =
          (match (recordingClient.UpdateApplication []
              (UpdateApp.request (sampleApp (some [("A", ""), ("B", "2")]) none)
                ["B", "A"])).1 with
            | .error err => .fails (.remote err)
            | .ok res => convertOCIAppToAdapterApp testEnv res) ∧
        ∀ k v,
          configGet
              (UpdateApp.request (sampleApp (some [("A", ""), ("B", "2")]) none)
                ["B", "A"]).Config k = some v ↔
            (configGet (sampleApp (some [("A", ""), ("B", "2")]) none).Config k = some v ∧
              v ≠ "")) := by
  have hord : ∀ k v, configGet (sampleApp (some [("A", ""), ("B", "2")]) none).Config k = some v →
      k ∈ ["B", "A"] := by
    intro k v h
    simp only [sampleApp, configGet, Option.some_bind, mapLookup] at h
    by_cases hA : "A" = k
    · simp [← hA]
    · by_cases hB : "B" = k
      · simp [← hB]
      · simp [hA, hB] at h
  exact ⟨hord, rfl, rfl,
    UpdateApp_transmits_nonempty_entries testEnv recordingClient []
      (sampleApp (some [("A", ""), ("B", "2")]) none) ["B", "A"] hord⟩

/-! ## GetApp: the not-found error (C6) -/

/-- The full-resource converter fails only with an `errors.New` value. -/
theorem convertOCIAppToAdapterApp_fails (env : Env) (ociApp : Application) (err : Error)
    (h : convertOCIAppToAdapterApp env ociApp = .fails err) : ∃ msg, err = .errorsNew msg := by
  unfold convertOCIAppToAdapterApp at h
  split at h
  · cases h
  · split at h
    · cases h; exact ⟨_, rfl⟩
    · split at h
      · cases h
      · split at h
        · cases h; exact ⟨_, rfl⟩
        · simp only at h
          split at h
          · cases h
          · split at h <;> cases h

/-- C6: when the name-filtered list call succeeds with zero items, `GetApp`
returns the error `AppNameNotFoundError` carrying the queried name and makes no
call but that list call; and whenever `GetApp` returns an
`AppNameNotFoundError`, it carries the queried name and the list call had
succeeded with zero items. -/
theorem GetApp_not_found_iff_zero_matches {σ : Type} (env : Env)
    (c : FunctionsManagementClient σ) (s : σ) (appName : String) :
    (∀ resp s1,
        c.ListApplications s
            { CompartmentId := env.compartmentId, DisplayName := some appName, Page := none } =
          (.ok resp, s1) →
        resp.Items = [] →
        (GetApp env c s appName).outcome = .fails (.AppNameNotFoundError appName) ∧
          (GetApp env c s appName).calls =
            [Call.list
              { CompartmentId := env.compartmentId, DisplayName := some appName, Page := none }
              (.ok resp)]) ∧
      (∀ name, (GetApp env c s appName).outcome = .fails (.AppNameNotFoundError name) →
        name = appName ∧
          ∃ resp s1,
            c.ListApplications s
                { CompartmentId := env.compartmentId, DisplayName := some appName,
                  Page := none } = (.ok resp, s1) ∧
              resp.Items = []) := by
  constructor
  · intro resp s1 hlist hitems
    simp only [GetApp, hlist, hitems]
    exact ⟨trivial, trivial⟩
  · intro name hout
    simp only [GetApp] at hout
    cases hlist : c.ListApplications s
        { CompartmentId := env.compartmentId, DisplayName := some appName, Page := none } with
    | mk res s1 =>
      rw [hlist] at hout
      cases res with
      | error err => simp at hout
      | ok resp =>
        simp only at hout
        cases hitems : resp.Items with
        | nil =>
          rw [hitems] at hout
          simp only [Outcome.fails.injEq, Error.AppNameNotFoundError.injEq] at hout
          exact ⟨hout.symm, resp, s1, rfl, hitems⟩
        | cons item0 rest =>
          rw [hitems] at hout
          simp only at hout
          cases hget : c.GetApplication s1 { ApplicationId := item0.Id } with
          | mk gres s2 =>
            rw [hget] at hout
            cases gres with
            | error geterr => simp at hout
            | ok getres =>
              simp only at hout
              obtain ⟨msg, hmsg⟩ := convertOCIAppToAdapterApp_fails env getres _ hout
              cases hmsg

/-- Witness for C6: looking up "missing" on a remote whose list is empty. -/
theorem GetApp_not_found_iff_zero_matches_witness :
    (pagedClient noItems).ListApplications ()
        { CompartmentId := testEnv.compartmentId, DisplayName := some "missing", Page := none } =
        (.ok { Items := [], OpcNextPage := none }, ()) ∧
      (GetApp testEnv (pagedClient noItems) () "missing").outcome =
        .fails (.AppNameNotFoundError "missing") ∧
      (GetApp testEnv (pagedClient noItems) () "missing").calls =
        [Call.list
          { CompartmentId := testEnv.compartmentId, DisplayName := some "missing", Page := none }
          (.ok { Items := [], OpcNextPage := none })] :=
  ⟨rfl,
    (GetApp_not_found_iff_zero_matches testEnv (pagedClient noItems) () "missing").1
      { Items := [], OpcNextPage := none } () rfl rfl⟩

/-! ## Converters on a missing required field (C9) -/

/-- C9 fails on the code: with all other fields present and both times
parsing, a list item or a full resource whose `TimeCreated`, `TimeUpdated`,
`DisplayName` or `Id` is nil makes the converter panic on the nil pointer; it
returns neither an App nor an error. -/
theorem converters_panic_on_missing_field :
    convertOCIAppSummaryToAdapterApp testEnv { sampleSummary "a" with TimeCreated := none } =
        .panics ∧
      convertOCIAppSummaryToAdapterApp testEnv { sampleSummary "a" with TimeUpdated := none } =
        .panics ∧
      convertOCIAppSummaryToAdapterApp testEnv { sampleSummary "a" with DisplayName := none } =
        .panics ∧
      convertOCIAppSummaryToAdapterApp testEnv { sampleSummary "a" with Id := none } =
        .panics ∧
      convertOCIAppToAdapterApp testEnv { sampleApplication "a" with TimeCreated := none } =
        .panics ∧
      convertOCIAppToAdapterApp testEnv { sampleApplication "a" with TimeUpdated := none } =
        .panics ∧
      convertOCIAppToAdapterApp testEnv { sampleApplication "a" with DisplayName := none } =
        .panics ∧
      convertOCIAppToAdapterApp testEnv { sampleApplication "a" with Id := none } = .panics :=
  ⟨rfl, rfl, rfl, rfl, rfl, rfl, rfl, rfl⟩

/-- A nil `TimeCreated` makes either converter panic in every environment: the
error "missing or invalid TimeCreated in application" is never returned for a
missing field. -/
theorem converters_panic_without_TimeCreated (env : Env) (summary : ApplicationSummary)
    (app : Application) (hs : summary.TimeCreated = none) (ha : app.TimeCreated = none) :
    convertOCIAppSummaryToAdapterApp env summary = .panics ∧
      convertOCIAppToAdapterApp env app = .panics := by
  simp [convertOCIAppSummaryToAdapterApp, convertOCIAppToAdapterApp, hs, ha]

/-! ## ListApp: the calls it records -/

theorem ListApp_finish_calls {σ : Type} (s : σ) (calls : List Call) (resApps : List App) :
    (ListApp.finish s calls resApps).calls = calls := by
  unfold ListApp.finish
  split <;> rfl

/-- Once a list call of the loop has come back with an error, the loop has
returned that error. -/
theorem ListApp_loop_error_call {σ : Type} (env : Env) (c : FunctionsManagementClient σ)
    (limit : Int) (e : RemoteError) :
    ∀ (fuel : Nat) (s : σ) (req : ListApplicationsRequest) (resApps : List App)
      (calls : List Call),
      (∀ call ∈ calls, call.error? = none) →
      ∀ call ∈ (ListApp.loop env c limit fuel s req resApps calls).calls,
        call.error? = some e →
        (ListApp.loop env c limit fuel s req resApps calls).outcome =
          some (.fails (.remote e)) := by
  intro fuel
  induction fuel with
  | zero =>
    intro s req resApps calls hcalls call hmem herr
    simp only [ListApp.loop] at hmem
    rw [hcalls call hmem] at herr
    cases herr
  | succ fuel ih =>
    intro s req resApps calls hcalls call hmem herr
    unfold ListApp.loop at hmem ⊢
    cases hlist : c.ListApplications s req with
    | mk res s1 =>
      rw [hlist] at hmem
      cases res with
      | error err =>
        simp only [List.mem_append, List.mem_singleton] at hmem ⊢
        rcases hmem with hmem | hmem
        · rw [hcalls call hmem] at herr
          cases herr
        · subst hmem
          simp only [Call.error?, Option.some.injEq] at herr
          subst herr
          rfl
      | ok resp =>
        have hcalls1 : ∀ call ∈ calls ++ [Call.list req (.ok resp)], call.error? = none := by
          intro call' hmem'
          simp only [List.mem_append, List.mem_singleton] at hmem'
          rcases hmem' with hmem' | hmem'
          · exact hcalls call' hmem'
          · subst hmem'
            rfl
        simp only at hmem ⊢
        cases hconv : convertOCIAppsToAdapterApps env resp.Items with
        | fails err =>
          rw [hconv] at hmem
          simp only at hmem
          rw [hcalls1 call hmem] at herr
          cases herr
        | panics =>
          rw [hconv] at hmem
          simp only at hmem
          rw [hcalls1 call hmem] at herr
          cases herr
        | returns adapterApps =>
          rw [hconv] at hmem
          simp only at hmem ⊢
          split at hmem
          · rw [ListApp_finish_calls] at hmem
            rw [hcalls1 call hmem] at herr
            cases herr
          · rename_i hcond
            rw [if_neg hcond]
            exact ih _ _ _ _ hcalls1 call hmem herr

/-! ## ListApp: how many apps it returns (C4) -/

theorem wrapInt64_of_range (x : Int) (hlo : -2 ^ 63 ≤ x) (hhi : x < 2 ^ 63) :
    wrapInt64 x = x := by
  unfold wrapInt64
  omega

theorem lastPageSize_concat (calls : List Call) (call : Call) :
    lastPageSize (calls ++ [call]) = call.itemCount := by
  simp [lastPageSize]

theorem convertOCIAppsToAdapterApps_loop_length (env : Env) :
    ∀ (ociApps : List ApplicationSummary) (resApps apps : List App),
      convertOCIAppsToAdapterApps.loop env ociApps resApps = .returns apps →
      apps.length = resApps.length + ociApps.length := by
  intro ociApps
  induction ociApps with
  | nil =>
    intro resApps apps h
    simp only [convertOCIAppsToAdapterApps.loop, Outcome.returns.injEq] at h
    subst h
    simp
  | cons ociApp rest ih =>
    intro resApps apps h
    unfold convertOCIAppsToAdapterApps.loop at h
    cases hconv : convertOCIAppSummaryToAdapterApp env ociApp with
    | fails err => rw [hconv] at h; cases h
    | panics => rw [hconv] at h; cases h
    | returns app =>
      rw [hconv] at h
      have := ih _ _ h
      simp only [List.length_append, List.length_cons, List.length_nil] at this ⊢
      omega

theorem convertOCIAppsToAdapterApps_length (env : Env) (ociApps : List ApplicationSummary)
    (apps : List App) (h : convertOCIAppsToAdapterApps env ociApps = .returns apps) :
    apps.length = ociApps.length := by
  have := convertOCIAppsToAdapterApps_loop_length env ociApps [] apps h
  simpa using this

theorem ListApp_finish_returns {σ : Type} (s : σ) (calls : List Call) (resApps apps : List App)
    (h : (ListApp.finish s calls resApps).outcome = some (.returns apps)) :
    apps.length = resApps.length := by
  unfold ListApp.finish at h
  split at h
  · rename_i hlen
    simp only [Option.some.injEq, Outcome.returns.injEq] at h
    subst h
    simp [hlen]
  · simp only [Option.some.injEq, Outcome.returns.injEq] at h
    subst h
    rfl

/-- The apps accumulated when an iteration starts are among those returned. -/
theorem ListApp_loop_length_mono {σ : Type} (env : Env) (c : FunctionsManagementClient σ)
    (limit : Int) :
    ∀ (fuel : Nat) (s : σ) (req : ListApplicationsRequest) (resApps : List App)
      (calls : List Call) (apps : List App),
      (ListApp.loop env c limit fuel s req resApps calls).outcome = some (.returns apps) →
      resApps.length ≤ apps.length := by
  intro fuel
  induction fuel with
  | zero =>
    intro s req resApps calls apps h
    simp [ListApp.loop] at h
  | succ fuel ih =>
    intro s req resApps calls apps h
    unfold ListApp.loop at h
    cases hlist : c.ListApplications s req with
    | mk res s1 =>
      rw [hlist] at h
      cases res with
      | error err => simp at h
      | ok resp =>
        simp only at h
        cases hconv : convertOCIAppsToAdapterApps env resp.Items with
        | fails err => rw [hconv] at h; simp at h
        | panics => rw [hconv] at h; simp at h
        | returns adapterApps =>
          rw [hconv] at h
          simp only at h
          split at h
          · have := ListApp_finish_returns _ _ _ _ h
            simp only [List.length_append] at this
            omega
          · have := ih _ _ _ _ _ h
            simp only [List.length_append] at this
            omega

/-- The bound on the loop of `ListApp`: started with at most `limit` apps, it
returns at most `limit` apps more than the last page holds. -/
theorem ListApp_loop_length_bound {σ : Type} (env : Env) (c : FunctionsManagementClient σ)
    (limit : Int) (h0 : 0 ≤ limit) (h1 : limit < 2 ^ 63) :
    ∀ (fuel : Nat) (s : σ) (req : ListApplicationsRequest) (resApps : List App)
      (calls : List Call) (apps : List App),
      (resApps.length : Int) ≤ limit →
      (ListApp.loop env c limit fuel s req resApps calls).outcome = some (.returns apps) →
      apps.length < 2 ^ 62 →
      (apps.length : Int) ≤
        limit + lastPageSize (ListApp.loop env c limit fuel s req resApps calls).calls := by
  intro fuel
  induction fuel with
  | zero =>
    intro s req resApps calls apps _ h
    simp [ListApp.loop] at h
  | succ fuel ih =>
    intro s req resApps calls apps hacc h hsize
    unfold ListApp.loop at h ⊢
    cases hlist : c.ListApplications s req with
    | mk res s1 =>
      rw [hlist] at h
      cases res with
      | error err => simp at h
      | ok resp =>
        simp only at h ⊢
        cases hconv : convertOCIAppsToAdapterApps env resp.Items with
        | fails err => rw [hconv] at h; simp at h
        | panics => rw [hconv] at h; simp at h
        | returns adapterApps =>
          rw [hconv] at h
          have hlen := convertOCIAppsToAdapterApps_length env _ _ hconv
          simp only at h ⊢
          split at h
          · rename_i hcond
            rw [if_pos hcond, ListApp_finish_calls, lastPageSize_concat]
            have := ListApp_finish_returns _ _ _ _ h
            simp only [List.length_append] at this
            simp only [Call.itemCount]
            omega
          · rename_i hcond
            rw [if_neg hcond]
            have hmono := ListApp_loop_length_mono env c limit _ _ _ _ _ _ h
            simp only [List.length_append] at hmono hcond
            have hmore : ¬ wrapInt64
                (limit - ((resApps.length + adapterApps.length + resp.Items.length : Nat) : Int))
                  ≤ 0 := fun hle => hcond (Or.inl hle)
            rw [wrapInt64_of_range _ (by omega) (by omega)] at hmore
            refine ih _ _ _ _ _ ?_ h hsize
            simp only [List.length_append]
            omega

/-- C4, as stated, fails on the code: with limit 1 against a remote that
serves its two items in one page, `ListApp` returns without error and returns
both items. -/
theorem ListApp_returns_more_than_limit :
    ∃ apps, (ListApp testEnv (pagedClient twoItems) () 1 1).outcome = some (.returns apps) ∧
      ¬ ((apps.length : Int) ≤ 1) :=
  ⟨_, rfl, by decide⟩

/-- C4, amended: for a limit from 0 to the largest `int64`, when `ListApp`
returns without error, the length of the returned sequence is at most `limit`
plus the number of items of the last page fetched: pages are appended whole.
The returned slice is taken to hold fewer than 2^62 apps, as every Go slice of
pointers does. -/
theorem ListApp_length_le_limit_plus_last_page {σ : Type} (env : Env)
    (c : FunctionsManagementClient σ) (s : σ) (limit : Int) (fuel : Nat) (apps : List App)
    (h0 : 0 ≤ limit) (h1 : limit < 2 ^ 63)
    (hret : (ListApp env c s limit fuel).outcome = some (.returns apps))
    (hsize : apps.length < 2 ^ 62) :
    (apps.length : Int) ≤ limit + lastPageSize (ListApp env c s limit fuel).calls :=
  ListApp_loop_length_bound env c limit h0 h1 fuel s _ [] [] apps (by simpa using h0) hret hsize

/-- Witness for C4: limit 11 against the remote of 12 items in pages of 5:
two pages are fetched and 10 apps returned. -/
theorem ListApp_length_le_limit_plus_last_page_witness :
    ∃ apps, (ListApp testEnv (pagedClient twelveItems) () 11 4).outcome = some (.returns apps) ∧
      apps.length = 10 ∧
      lastPageSize (ListApp testEnv (pagedClient twelveItems) () 11 4).calls = 5 ∧
      (apps.length : Int) ≤
        11 + lastPageSize (ListApp testEnv (pagedClient twelveItems) () 11 4).calls :=
  ⟨_, rfl, rfl, rfl,
    ListApp_length_le_limit_plus_last_page testEnv (pagedClient twelveItems) () 11 4 _
      (by decide) (by decide) rfl (by decide)⟩

/-! ## ListApp with limit 5 on 12 items in pages of 5 (C5) -/

/-- C5, as stated, fails on the code: however many iterations are allowed,
`ListApp(5)` against the remote of 12 items in pages of 5, 5 and 2 never makes
two list requests. -/
theorem ListApp_limit5_never_two_requests :
    ¬ ∃ fuel,
        2 ≤ ((ListApp testEnv (pagedClient twelveItems) () 5 fuel).calls.filter
              Call.isList).length := by
  rintro ⟨fuel, h⟩
  cases fuel with
  | zero => revert h; decide
  | succ n =>
    have hcalls : (ListApp testEnv (pagedClient twelveItems) () 5 (n + 1)).calls =
        [Call.list firstListRequest (twelveItems none)] := rfl
    rw [hcalls] at h
    revert h
    decide

/-- C5, amended: `ListApp(5)` against the remote of 12 items in pages of 5, 5
and 2 issues exactly one list request, the one without a cursor, and returns
the five apps of the first page: after the first page the count 5 + 5 has
reached the limit. -/
theorem ListApp_limit5_one_request (fuel : Nat) :
    (ListApp testEnv (pagedClient twelveItems) () 5 (fuel + 1)).calls =
        [Call.list firstListRequest (twelveItems none)] ∧
      ∃ apps,
        (ListApp testEnv (pagedClient twelveItems) () 5 (fuel + 1)).outcome =
            some (.returns apps) ∧
          apps.map (fun app => app.ID) = ["a1", "a2", "a3", "a4", "a5"] :=
  ⟨rfl, _, rfl, rfl⟩

/-! ## ListApp on empty pages (C7) -/

/-- On the remote whose pages are all empty and all carry a cursor, the loop
with limit 1 is still running after any number of iterations. -/
theorem ListApp_loop_endlessEmpty (fuel : Nat) :
    ∀ (req : ListApplicationsRequest) (calls : List Call),
      (ListApp.loop testEnv (pagedClient endlessEmpty) 1 fuel () req [] calls).outcome =
        none := by
  induction fuel with
  | zero => intro req calls; rfl
  | succ fuel ih =>
    intro req calls
    have hstep :
        ListApp.loop testEnv (pagedClient endlessEmpty) 1 (fuel + 1) () req [] calls =
          ListApp.loop testEnv (pagedClient endlessEmpty) 1 fuel ()
            { req with Page := some "next" } []
            (calls ++ [Call.list req (.ok { Items := [], OpcNextPage := some "next" })]) := rfl
    rw [hstep]
    exact ih _ _

/-- C7, as stated, fails on the code: against a remote every page of which is
empty, none failing, and every page of which carries a next-page cursor,
`ListApp(1)` never returns, whatever number of iterations it is given. -/
theorem ListApp_never_returns_on_endless_empty_pages :
    (∀ n, isEmptyPage (pageAt (pagedClient endlessEmpty) n () firstListRequest) = true) ∧
      ¬ ∃ fuel out,
          (ListApp testEnv (pagedClient endlessEmpty) () 1 fuel).outcome = some out := by
  constructor
  · have hall : ∀ n req, isEmptyPage (pageAt (pagedClient endlessEmpty) n () req) = true := by
      intro n
      induction n with
      | zero => intro req; rfl
      | succ n ih =>
        intro req
        exact ih { req with Page := some "next" }
    intro n
    exact hall n _
  · rintro ⟨fuel, out, h⟩
    have hnone := ListApp_loop_endlessEmpty fuel
      { CompartmentId := testEnv.compartmentId, DisplayName := none, Page := none } []
    unfold ListApp at h
    simp only at h
    rw [hnone] at h
    cases h

/-- One iteration of the loop of `ListApp` on a page that converts. -/
theorem ListApp_loop_step {σ : Type} (env : Env) (c : FunctionsManagementClient σ)
    (limit : Int) (fuel : Nat) (s s1 : σ) (req : ListApplicationsRequest)
    (resp : ListApplicationsResponse) (resApps adapterApps : List App) (calls : List Call)
    (hlist : c.ListApplications s req = (.ok resp, s1))
    (hconv : convertOCIAppsToAdapterApps env resp.Items = .returns adapterApps) :
    ListApp.loop env c limit (fuel + 1) s req resApps calls =
      if wrapInt64
            (limit - (((resApps ++ adapterApps).length + resp.Items.length : Nat) : Int)) ≤ 0 ∨
          resp.OpcNextPage = none then
        ListApp.finish s1 (calls ++ [Call.list req (.ok resp)]) (resApps ++ adapterApps)
      else
        ListApp.loop env c limit fuel s1 { req with Page := resp.OpcNextPage }
          (resApps ++ adapterApps) (calls ++ [Call.list req (.ok resp)]) := by
  rw [ListApp.loop]
  simp only [hlist, hconv]

/-- The loop of `ListApp` on empty pages: when the pages up to number `n` of
the cursor chain are empty and the limit is not positive or page `n` has no
cursor, more than `n` iterations end the loop with a nil sequence and the
diagnostic line. -/
theorem ListApp_loop_empty_pages {σ : Type} (env : Env) (c : FunctionsManagementClient σ)
    (limit : Int) (hlo : -2 ^ 63 ≤ limit) (hhi : limit < 2 ^ 63) :
    ∀ (fuel n : Nat) (s : σ) (req : ListApplicationsRequest) (calls : List Call),
      n < fuel →
      (∀ j, j ≤ n → isEmptyPage (pageAt c j s req) = true) →
      (limit ≤ 0 ∨ isLastPage (pageAt c n s req) = true) →
      (ListApp.loop env c limit fuel s req [] calls).outcome = some (.returns []) ∧
        (ListApp.loop env c limit fuel s req [] calls).stderr = ["No apps found\n"] := by
  intro fuel
  induction fuel with
  | zero => intro n s req calls hn; omega
  | succ fuel ih =>
    intro n s req calls hn hempty hstop
    have hfirst := hempty 0 (Nat.zero_le _)
    cases hlist : c.ListApplications s req with
    | mk res s1 =>
      simp only [pageAt, hlist] at hfirst
      cases res with
      | error err => simp [isEmptyPage] at hfirst
      | ok resp =>
        simp only [isEmptyPage, List.isEmpty_iff] at hfirst
        have hconv : convertOCIAppsToAdapterApps env resp.Items = .returns [] := by
          rw [hfirst]; rfl
        rw [ListApp_loop_step env c limit fuel s s1 req resp [] [] calls hlist hconv]
        split
        · simp [ListApp.finish]
        · rename_i hcond
          have hpos : ¬ limit ≤ 0 := by
            intro hle
            apply hcond
            left
            simp only [hfirst, List.append_nil, List.length_nil, Nat.add_zero, Nat.cast_zero,
              sub_zero]
            rw [wrapInt64_of_range _ hlo hhi]
            exact hle
          have hcur : ¬ resp.OpcNextPage = none := fun h => hcond (Or.inr h)
          cases n with
          | zero =>
            rcases hstop with hstop | hstop
            · exact absurd hstop hpos
            · simp only [pageAt, hlist, isLastPage, Option.isNone_iff_eq_none] at hstop
              exact absurd hstop hcur
          | succ n =>
            refine ih n s1 _ _ (by omega) ?_ ?_
            · intro j hj
              have := hempty (j + 1) (by omega)
              simpa only [pageAt, hlist] using this
            · rcases hstop with hstop | hstop
              · exact Or.inl hstop
              · right
                simpa only [pageAt, hlist] using hstop

/-- C7, amended: for every `int64` limit, if the pages up to number `n` of the
cursor chain are all served without failure and without items, and either the
limit is not positive or page `n` carries no next-page cursor, then `ListApp`
returns, within `n + 1` iterations, a nil sequence and a nil error, having
written the line "No apps found" to standard error. -/
theorem ListApp_empty_pages_returns_nil {σ : Type} (env : Env)
    (c : FunctionsManagementClient σ) (s : σ) (limit : Int) (n fuel : Nat)
    (hlo : -2 ^ 63 ≤ limit) (hhi : limit < 2 ^ 63)
    (hempty : ∀ j, j ≤ n →
      isEmptyPage (pageAt c j s
        { CompartmentId := env.compartmentId, DisplayName := none, Page := none }) = true)
    (hstop : limit ≤ 0 ∨
      isLastPage (pageAt c n s
        { CompartmentId := env.compartmentId, DisplayName := none, Page := none }) = true)
    (hfuel : n < fuel) :
    (ListApp env c s limit fuel).outcome = some (.returns []) ∧
      (ListApp env c s limit fuel).stderr = ["No apps found\n"] :=
  ListApp_loop_empty_pages env c limit hlo hhi fuel n s _ [] hfuel hempty hstop

/-- Witness for C7: limit 10 against a remote whose one page is empty. -/
theorem ListApp_empty_pages_returns_nil_witness :
    isEmptyPage (pageAt (pagedClient noItems) 0 () firstListRequest) = true ∧
      isLastPage (pageAt (pagedClient noItems) 0 () firstListRequest) = true ∧
      (ListApp testEnv (pagedClient noItems) () 10 1).outcome = some (.returns []) ∧
      (ListApp testEnv (pagedClient noItems) () 10 1).stderr = ["No apps found\n"] :=
  ⟨rfl, rfl,
    ListApp_empty_pages_returns_nil testEnv (pagedClient noItems) () 10 0 1 (by decide)
      (by decide)
      (fun j hj => by
        have hj0 : j = 0 := Nat.le_zero.mp hj
        subst hj0
        rfl)
      (Or.inr rfl) (by decide)⟩

/-! ## ListApp: the pagination rule (C10) -/

/-- C10 fails on the code at the least `int64` limit: against the remote of 12
items in pages of 5, 5 and 2, after the first page the count is 5 + 5 and the
limit -2^63 is not greater, so the rule asks `ListApp` to stop; the
subtraction `limit - 10` wraps around to 2^63 - 10, which is positive, and
`ListApp` goes on to request the pages "p2" and "p3". -/
theorem ListApp_least_limit_keeps_fetching :
    (ListApp testEnv (pagedClient twelveItems) () (-2 ^ 63) 4).calls.map Call.page? =
        [none, some "p2", some "p3"] ∧
      ¬ ((-2 ^ 63 : Int) > ((5 + 5 : Nat) : Int)) ∧
      wrapInt64 (-2 ^ 63 - ((5 + 5 : Nat) : Int)) = 2 ^ 63 - 10 :=
  ⟨rfl, by decide, by decide⟩

/-- The pagination rule where the subtraction does not overflow: after a page
is converted and appended, the loop requests a further page, with that page's
cursor, exactly when the page carried a cursor and `limit` is greater than the
number of apps accumulated plus the number of items of the page; otherwise it
stops with the apps accumulated. -/
theorem ListApp_loop_follows_rule {σ : Type} (env : Env) (c : FunctionsManagementClient σ)
    (limit : Int) (fuel : Nat) (s s1 : σ) (req : ListApplicationsRequest)
    (resp : ListApplicationsResponse) (resApps adapterApps : List App) (calls : List Call)
    (hlist : c.ListApplications s req = (.ok resp, s1))
    (hconv : convertOCIAppsToAdapterApps env resp.Items = .returns adapterApps)
    (hhi : limit < 2 ^ 63)
    (hlo : -2 ^ 63 ≤
      limit - (((resApps ++ adapterApps).length + resp.Items.length : Nat) : Int)) :
    ListApp.loop env c limit (fuel + 1) s req resApps calls =
      if resp.OpcNextPage ≠ none ∧
          limit > (((resApps ++ adapterApps).length + resp.Items.length : Nat) : Int) then
        ListApp.loop env c limit fuel s1 { req with Page := resp.OpcNextPage }
          (resApps ++ adapterApps) (calls ++ [Call.list req (.ok resp)])
      else
        ListApp.finish s1 (calls ++ [Call.list req (.ok resp)]) (resApps ++ adapterApps) := by
  rw [ListApp_loop_step env c limit fuel s s1 req resp resApps adapterApps calls hlist hconv]
  rw [wrapInt64_of_range _ hlo (by omega)]
  by_cases hcur : resp.OpcNextPage = none
  · simp [hcur]
  · by_cases hgt :
        limit > (((resApps ++ adapterApps).length + resp.Items.length : Nat) : Int)
    · have hle :
          ¬ limit - (((resApps ++ adapterApps).length + resp.Items.length : Nat) : Int) ≤ 0 := by
        omega
      rw [if_neg (by tauto), if_pos ⟨hcur, hgt⟩]
    · have hle :
          limit - (((resApps ++ adapterApps).length + resp.Items.length : Nat) : Int) ≤ 0 := by
        omega
      rw [if_pos (Or.inl hle), if_neg (by tauto)]

theorem ListApp_finish_returns_eq {σ : Type} (s : σ) (calls : List Call)
    (resApps apps : List App)
    (h : (ListApp.finish s calls resApps).outcome = some (.returns apps)) :
    apps = resApps := by
  unfold ListApp.finish at h
  split at h
  · rename_i hlen
    simp only [Option.some.injEq, Outcome.returns.injEq] at h
    subst h
    exact (List.length_eq_zero.mp hlen).symm
  · simp only [Option.some.injEq, Outcome.returns.injEq] at h
    exact h.symm

/-- On success the loop returns the apps it started with followed by the
conversions of all items of every page it fetched, in fetch order. -/
theorem ListApp_loop_returns_concatenation {σ : Type} (env : Env)
    (c : FunctionsManagementClient σ) (limit : Int) :
    ∀ (fuel : Nat) (s : σ) (req : ListApplicationsRequest) (resApps : List App)
      (calls : List Call) (apps : List App),
      (ListApp.loop env c limit fuel s req resApps calls).outcome = some (.returns apps) →
      ∃ fetched,
        (ListApp.loop env c limit fuel s req resApps calls).calls = calls ++ fetched ∧
          apps = resApps ++ fetched.flatMap (Call.convertedItems env) := by
  intro fuel
  induction fuel with
  | zero =>
    intro s req resApps calls apps h
    simp [ListApp.loop] at h
  | succ fuel ih =>
    intro s req resApps calls apps h
    cases hlist : c.ListApplications s req with
    | mk res s1 =>
      cases res with
      | error err => simp [ListApp.loop, hlist] at h
      | ok resp =>
        cases hconv : convertOCIAppsToAdapterApps env resp.Items with
        | fails err => simp [ListApp.loop, hlist, hconv] at h
        | panics => simp [ListApp.loop, hlist, hconv] at h
        | returns adapterApps =>
          have hitems :
              Call.convertedItems env (Call.list req (.ok resp)) = adapterApps := by
            simp [Call.convertedItems, hconv]
          rw [ListApp_loop_step env c limit fuel s s1 req resp resApps adapterApps calls
            hlist hconv] at h ⊢
          split at h
          · rename_i hcond
            rw [if_pos hcond, ListApp_finish_calls]
            refine ⟨[Call.list req (.ok resp)], rfl, ?_⟩
            rw [ListApp_finish_returns_eq _ _ _ _ h]
            simp [hitems]
          · rename_i hcond
            rw [if_neg hcond]
            obtain ⟨fetched, hcalls, happs⟩ := ih _ _ _ _ _ h
            refine ⟨Call.list req (.ok resp) :: fetched, ?_, ?_⟩
            · rw [hcalls]; simp
            · rw [happs]; simp [hitems]

/-- On success `ListApp` returns the conversions of all items of every page
it fetched, in fetch order and in page order. -/
theorem ListApp_returns_concatenation {σ : Type} (env : Env)
    (c : FunctionsManagementClient σ) (s : σ) (limit : Int) (fuel : Nat) (apps : List App)
    (h : (ListApp env c s limit fuel).outcome = some (.returns apps)) :
    apps = (ListApp env c s limit fuel).calls.flatMap (Call.convertedItems env) := by
  obtain ⟨fetched, hcalls, happs⟩ :=
    ListApp_loop_returns_concatenation env c limit fuel s _ [] [] apps h
  unfold ListApp
  simp only at hcalls ⊢
  rw [hcalls, happs]
  simp

/-! ## Transport errors (C8) -/

/-- When the loop of `ListApp` is still running after `n` iterations and the
remote answers request number `n` of the cursor chain with an error, any
larger number of iterations ends the loop with that error, whatever had been
accumulated. -/
theorem ListApp_loop_error_at_page {σ : Type} (env : Env) (c : FunctionsManagementClient σ)
    (limit : Int) (e : RemoteError) :
    ∀ (n : Nat) (s : σ) (req : ListApplicationsRequest) (resApps : List App)
      (calls : List Call),
      (ListApp.loop env c limit n s req resApps calls).outcome = none →
      pageAt c n s req = .error e →
      ∀ fuel, n < fuel →
        (ListApp.loop env c limit fuel s req resApps calls).outcome =
          some (.fails (.remote e)) := by
  intro n
  induction n with
  | zero =>
    intro s req resApps calls _ hpage fuel hfuel
    obtain ⟨f, rfl⟩ : ∃ f, fuel = f + 1 := ⟨fuel - 1, by omega⟩
    unfold ListApp.loop
    rcases hlist : c.ListApplications s req with ⟨res, s1⟩
    simp only [pageAt, hlist] at hpage
    subst hpage
    rfl
  | succ n ih =>
    intro s req resApps calls hrun hpage fuel hfuel
    obtain ⟨f, rfl⟩ : ∃ f, fuel = f + 1 := ⟨fuel - 1, by omega⟩
    rcases hlist : c.ListApplications s req with ⟨res, s1⟩
    cases res with
    | error err => simp [ListApp.loop, hlist] at hrun
    | ok resp =>
      cases hconv : convertOCIAppsToAdapterApps env resp.Items with
      | fails err => simp [ListApp.loop, hlist, hconv] at hrun
      | panics => simp [ListApp.loop, hlist, hconv] at hrun
      | returns adapterApps =>
        rw [ListApp_loop_step env c limit n s s1 req resp resApps adapterApps calls hlist
          hconv] at hrun
        rw [ListApp_loop_step env c limit f s s1 req resp resApps adapterApps calls hlist hconv]
        split at hrun
        · unfold ListApp.finish at hrun
          split at hrun <;> cases hrun
        · rename_i hcond
          rw [if_neg hcond]
          refine ih _ _ _ _ hrun ?_ f (by omega)
          simpa only [pageAt, hlist] using hpage

/-- C8: whenever the remote client answers a call an operation makes with an
error `e`, the operation returns exactly `e` and no App or App sequence, and
leaves the remote in the state that call reached.  For `CreateApp` (with
annotations that parse) it is the create call; for `GetApp` the list call, or
the get-by-ID call for the first item listed; for `UpdateApp` the update call
with the merged request; for `DeleteApp` the delete call; for `ListApp` the
list call of page `n` of the cursor chain, for any `n` the loop reaches (it
is still running after `n` iterations), and in the loop itself any list call,
whatever apps had been accumulated. -/
theorem transport_errors_pass_through {σ : Type} (env : Env)
    (c : FunctionsManagementClient σ) (s : σ) (e : RemoteError) :
    (∀ app subnetIds s1, parseSubnetIds app.Annotations = .ok subnetIds →
        c.CreateApplication s
            { CompartmentId := env.compartmentId, Config := app.Config, DisplayName := app.Name,
              SubnetIds := subnetIds } = (.error e, s1) →
        (CreateApp env c s app).outcome = .fails (.remote e) ∧
          (CreateApp env c s app).state = s1) ∧
      (∀ appName s1,
        c.ListApplications s
            { CompartmentId := env.compartmentId, DisplayName := some appName, Page := none } =
          (.error e, s1) →
        (GetApp env c s appName).outcome = .fails (.remote e) ∧
          (GetApp env c s appName).state = s1) ∧
      (∀ appName resp item0 rest s1 s2,
        c.ListApplications s
            { CompartmentId := env.compartmentId, DisplayName := some appName, Page := none } =
          (.ok resp, s1) →
        resp.Items = item0 :: rest →
        c.GetApplication s1 { ApplicationId := item0.Id } = (.error e, s2) →
        (GetApp env c s appName).outcome = .fails (.remote e) ∧
          (GetApp env c s appName).state = s2) ∧
      (∀ app order s1,
        c.UpdateApplication s (UpdateApp.request app order) = (.error e, s1) →
        (UpdateApp env c s app order).outcome = .fails (.remote e) ∧
          (UpdateApp env c s app order).state = s1) ∧
      (∀ appID s1, c.DeleteApplication s { ApplicationId := appID } = (.error e, s1) →
        (DeleteApp c s appID).outcome = .fails (.remote e) ∧
          (DeleteApp c s appID).state = s1) ∧
      (∀ limit n fuel, (ListApp env c s limit n).outcome = none →
        pageAt c n s
            { CompartmentId := env.compartmentId, DisplayName := none, Page := none } =
          .error e →
        n < fuel →
        (ListApp env c s limit fuel).outcome = some (.fails (.remote e))) ∧
      (∀ limit fuel s0 req resApps calls s1, c.ListApplications s0 req = (.error e, s1) →
        (ListApp.loop env c limit (fuel + 1) s0 req resApps calls).outcome =
            some (.fails (.remote e)) ∧
          (ListApp.loop env c limit (fuel + 1) s0 req resApps calls).state = s1) := by
  refine ⟨?_, ?_, ?_, ?_, ?_, ?_, ?_⟩
  · intro app subnetIds s1 hparse hcall
    simp only [CreateApp, hparse, hcall, and_self]
  · intro appName s1 hlist
    simp only [GetApp, hlist, and_self]
  · intro appName resp item0 rest s1 s2 hlist hitems hget
    simp only [GetApp, hlist, hitems, hget, and_self]
  · intro app order s1 hcall
    simp only [UpdateApp, hcall, and_self]
  · intro appID s1 hcall
    simp only [DeleteApp, hcall, and_self]
  · intro limit n fuel hrun hpage hfuel
    exact ListApp_loop_error_at_page env c limit e n s _ [] [] hrun hpage fuel hfuel
  · intro limit fuel s0 req resApps calls s1 hlist
    rw [ListApp.loop]
    simp only [hlist, and_self]

/-- Witness for C8: a create, a first list, an update and a delete against a
remote out of service; a get-by-ID that fails after the list found the app;
and a second page that fails after the first page gave five apps. -/
theorem transport_errors_pass_through_witness :
    ((CreateApp testEnv (failingClient unavailable) ()
          (sampleApp none (some [(AnnotationSubnet, Value.slice [Value.string "s1"])]))).outcome =
        .fails (.remote unavailable) ∧
      (CreateApp testEnv (failingClient unavailable) ()
          (sampleApp none (some [(AnnotationSubnet, Value.slice [Value.string "s1"])]))).state =
        ()) ∧
      ((GetApp testEnv (failingClient unavailable) () "app").outcome =
          .fails (.remote unavailable) ∧
        (GetApp testEnv (failingClient unavailable) () "app").state = ()) ∧
      (getFailsClient.GetApplication 1 { ApplicationId := some "app" } =
          (.error unavailable, 2) ∧
        (GetApp testEnv getFailsClient 0 "app").outcome = .fails (.remote unavailable) ∧
        (GetApp testEnv getFailsClient 0 "app").state = 2) ∧
      ((UpdateApp testEnv (failingClient unavailable) () (sampleApp none none) []).outcome =
          .fails (.remote unavailable) ∧
        (UpdateApp testEnv (failingClient unavailable) () (sampleApp none none) []).state =
          ()) ∧
      ((DeleteApp (failingClient unavailable) () "ocid1.app").outcome =
          .fails (.remote unavailable) ∧
        (DeleteApp (failingClient unavailable) () "ocid1.app").state = ()) ∧
      ((ListApp testEnv (pagedClient secondPageFails) () 100 1).outcome = none ∧
        pageAt (pagedClient secondPageFails) 1 () firstListRequest = .error unavailable ∧
        (ListApp testEnv (pagedClient secondPageFails) () 100 2).outcome =
          some (.fails (.remote unavailable))) ∧
      ((ListApp.loop testEnv (pagedClient secondPageFails) 100 1 ()
            { firstListRequest with Page := some "p2" }
            [sampleApp none none] []).outcome =
          some (.fails (.remote unavailable)) ∧
        (ListApp.loop testEnv (pagedClient secondPageFails) 100 1 ()
            { firstListRequest with Page := some "p2" }
            [sampleApp none none] []).state = ()) :=
  ⟨(transport_errors_pass_through testEnv (failingClient unavailable) () unavailable).1
      (sampleApp none (some [(AnnotationSubnet, Value.slice [Value.string "s1"])]))
      ["s1"] () rfl rfl,
    (transport_errors_pass_through testEnv (failingClient unavailable) () unavailable).2.1
      "app" () rfl,
    ⟨rfl,
      (transport_errors_pass_through testEnv getFailsClient 0 unavailable).2.2.1
        "app" { Items := [sampleSummary "app"], OpcNextPage := none } (sampleSummary "app") []
        1 2 rfl rfl rfl⟩,
    (transport_errors_pass_through testEnv (failingClient unavailable) () unavailable).2.2.2.1
      (sampleApp none none) [] () rfl,
    (transport_errors_pass_through testEnv (failingClient unavailable) () unavailable).2.2.2.2.1
      "ocid1.app" () rfl,
    ⟨rfl, rfl,
      (transport_errors_pass_through testEnv (pagedClient secondPageFails) ()
        unavailable).2.2.2.2.2.1 100 1 2 rfl rfl (by decide)⟩,
    (transport_errors_pass_through testEnv (pagedClient secondPageFails) ()
      unavailable).2.2.2.2.2.2 100 0 () { firstListRequest with Page := some "p2" }
      [sampleApp none none] [] () rfl⟩

end OCI
